import Mathlib

/-!
Verification of the Cardinal plugin/event runtime (`cardinal/plugins.py`).

Python dictionaries are embedded as association lists with unique keys kept
in insertion order; Python exceptions are embedded as `Except` error values;
Python callables are embedded as records carrying the metadata the code
inspects (`callable()`, `inspect.getargspec` argument count, method flag,
varargs flag) plus, for event callbacks, a behaviour describing what the
callback does when invoked (return / raise the reject signal / raise another
exception, optionally first calling back into the event bus).  Messages are
assumed newline-free (single-line chat lines), which makes the two command
regexes equivalent to the direct character scans used below.
-/

namespace CBot

/-! ### Association-list model of Python dicts -/

/-- Dictionary lookup (`d[k]` / `d.get(k)`), returning `none` for a missing
key. -/
def alookup {α : Type} (k : String) : List (String × α) → Option α
  | [] => none
  | (k2, v) :: rest => if k = k2 then some v else alookup k rest

/-- Membership test (`k in d`). -/
def amember {α : Type} (k : String) (l : List (String × α)) : Bool :=
  (alookup k l).isSome

/-- Dictionary assignment (`d[k] = v`): updates in place, or appends a new
key. -/
def aset {α : Type} (k : String) (v : α) : List (String × α) → List (String × α)
  | [] => [(k, v)]
  | (k2, v2) :: rest => if k = k2 then (k, v) :: rest else (k2, v2) :: aset k v rest

/-- Dictionary deletion (`del d[k]`); keys are unique so dropping every
binding of `k` removes exactly the one binding. -/
def aremove {α : Type} (k : String) : List (String × α) → List (String × α)
  | [] => []
  | (k2, v2) :: rest => if k2 = k then aremove k rest else (k2, v2) :: aremove k rest

theorem alookup_aset_ne {α : Type} (k j : String) (v : α) (l : List (String × α))
    (h : k ≠ j) : alookup k (aset j v l) = alookup k l := by
  induction l with
  | nil => simp [aset, alookup, h]
  | cons p rest ih =>
    obtain ⟨k2, v2⟩ := p
    by_cases hj : j = k2
    · subst hj
      simp [aset, alookup, h]
    · by_cases hk : k = k2 <;> simp [aset, alookup, hj, hk, ih]

theorem alookup_aset_self {α : Type} (k : String) (v : α) (l : List (String × α)) :
    alookup k (aset k v l) = some v := by
  induction l with
  | nil => simp [aset, alookup]
  | cons p rest ih =>
    obtain ⟨k2, v2⟩ := p
    by_cases hk : k = k2 <;> simp [aset, alookup, hk, ih]

theorem alookup_aremove {α : Type} (k j : String) (l : List (String × α)) :
    alookup k (aremove j l) = if k = j then none else alookup k l := by
  induction l with
  | nil => simp [aremove, alookup]
  | cons p rest ih =>
    obtain ⟨k2, v2⟩ := p
    by_cases h2 : k2 = j
    · subst h2
      by_cases hk : k = k2
      · subst hk; simp [aremove, alookup, ih]
      · simp [aremove, alookup, hk, ih]
    · by_cases hk : k = k2
      · subst hk
        simp [aremove, alookup, h2]
      · simp [aremove, alookup, h2, hk, ih]

/-! ### Event bus (`EventManager`) -/

/-- Opaque Python object (host context, event parameters). -/
inductive PyObj
  | obj (n : Nat)
deriving DecidableEq, Repr

/-- What an event callback does when invoked: return normally, raise the
reject signal (`EventRejectedMessage`), or raise any other exception. -/
inductive CbOutcome
  | ret
  | reject
  | err
deriving DecidableEq, Repr

/-- A reentrant call a callback may make into the event bus before producing
its outcome: `register_callback` for an event (which appends one entry to
that event's callback dict, or raises `KeyError` if the dict is missing), or
`remove_callback` (always a no-op or a deletion, never an error). -/
inductive Mut
  | addCb (ev : String)
  | removeCb (ev : String) (cid : String)
deriving DecidableEq, Repr

/-- Behaviour of a callback when called. -/
structure CbBeh where
  reenter : Option Mut
  outcome : CbOutcome
deriving DecidableEq, Repr

/-- A Python callable as the event bus observes it: `callable()`,
`inspect.getargspec` argument count, whether it is a bound method (extra
`self` slot), whether it declares `*args`, and its invocation behaviour. -/
structure PyCallable where
  isCallable : Bool
  nargs : Nat
  isMethod : Bool
  varargs : Bool
  beh : CbBeh
deriving DecidableEq, Repr

/-- `EventManager` state: `self.cardinal`, `self.registered_events` and
`self.registered_callbacks`. -/
structure EMState where
  cardinal : PyObj
  events : List (String × Int)
  callbacks : List (String × List (String × PyCallable))
deriving DecidableEq, Repr

/-- Exceptions escaping `EventManager` operations. -/
inductive EMErr
  | alreadyExists
  | typeError
  | notCallable
  | arityMismatch
  | keyError
  | fuelOut
deriving DecidableEq, Repr

/-- Errors escaping `EventManager.fire`. -/
inductive FireErr
  | doesNotExist
  | keyError
  | runtimeError
deriving DecidableEq, Repr

/-- The `required_params` argument as the code sees it: a Python `int`/`long`
or anything else (`isinstance` failure). -/
inductive PyNum
  | int (k : Int)
  | notNum
deriving DecidableEq, Repr

def PyNum.isInt : PyNum → Bool
  | .int _ => true
  | .notNum => false

/-- `EventManager.register`: duplicate name fails, a non-integer count fails,
and otherwise the event is declared (an empty callback dict is created if the
name has none yet). -/
def register (st : EMState) (name : String) (required_params : PyNum) :
    Except EMErr EMState :=
  if amember name st.events then .error .alreadyExists
  else
    match required_params with
    | .notNum => .error .typeError
    | .int k =>
      .ok { st with
            events := aset name k st.events,
            callbacks :=
              if amember name st.callbacks then st.callbacks
              else aset name ([] : List (String × PyCallable)) st.callbacks }

/-- `_generate_id` retry loop: successive random ids are modelled as a supply
`Nat → String`; the loop keeps drawing until an id is not already used.  The
unbounded random retry is cut off by `fuel` draws (the theorems assume a
fresh id occurs within the fuel, which a genuine random supply guarantees
with probability one). -/
def genFreshId (supply : Nat → String) (fuel : Nat) (used : List String) :
    Option String :=
  ((List.range fuel).map supply).find? (fun s => !(used.contains s))

/-- `EventManager._add_callback`: looks up the event's callback dict (raising
`KeyError` when the dict was never created), draws a fresh id, and appends
the callback under it. -/
def addCallback (st : EMState) (supply : Nat → String) (fuel : Nat)
    (ev : String) (cb : PyCallable) : Except EMErr (String × EMState) :=
  match alookup ev st.callbacks with
  | none => .error .keyError
  | some d =>
    match genFreshId supply fuel (d.map Prod.fst) with
    | none => .error .fuelOut
    | some cid =>
      .ok (cid, { st with callbacks := aset ev (d ++ [(cid, cb)]) st.callbacks })

/-- `EventManager.register_callback`: rejects non-callables; for an
undeclared event goes straight to `_add_callback`; for a declared event
checks the callback's argument count (minus the `self` slot for methods)
against `required_params + 1` unless the callback declares varargs. -/
def register_callback (st : EMState) (supply : Nat → String) (fuel : Nat)
    (ev : String) (cb : PyCallable) : Except EMErr (String × EMState) :=
  if cb.isCallable = false then .error .notCallable
  else if amember ev st.events = false then addCallback st supply fuel ev cb
  else
    let numFuncArgs : Int := (cb.nargs : Int) - (if cb.isMethod then 1 else 0)
    let numNeededArgs : Int := (alookup ev st.events).getD 0 + 1
    if numFuncArgs != numNeededArgs && !cb.varargs then .error .arityMismatch
    else addCallback st supply fuel ev cb

/-- Effective argument count of a callable as `register_callback` computes
it (`getargspec` count, minus one for a bound method's `self`). -/
def effArity (cb : PyCallable) : Int :=
  (cb.nargs : Int) - (if cb.isMethod then 1 else 0)

/-- Callback inserted by a reentrant `register_callback` call (its own
behaviour is inert). -/
def defaultCb : PyCallable :=
  ⟨true, 2, false, false, ⟨none, CbOutcome.ret⟩⟩

/-- Deterministic stand-in for the fresh id a reentrant `_add_callback` call
draws (pigeonhole: some candidate among `used.length + 1` is unused). -/
def freshIdFor (used : List String) : String :=
  (((List.range (used.length + 1)).map (fun k => "cb" ++ toString k)).find?
    (fun s => !(used.contains s))).getD ""

/-- Effect of a callback's reentrant call on the event-bus state; the `Bool`
is true when the call raised (`KeyError` from `_add_callback` on a dict that
was never created), which aborts the callback body. -/
def applyMut (st : EMState) : Mut → EMState × Bool
  | .addCb ev =>
    match alookup ev st.callbacks with
    | none => (st, true)
    | some d =>
      let d1 := d ++ [(freshIdFor (d.map Prod.fst), defaultCb)]
      ({ st with callbacks := aset ev d1 st.callbacks }, false)
  | .removeCb ev cid =>
    match alookup ev st.callbacks with
    | none => (st, false)
    | some d =>
      if amember cid d then
        ({ st with callbacks := aset ev (aremove cid d) st.callbacks }, false)
      else (st, false)

/-- The event the reentrant call touches. -/
def mutTarget : Mut → String
  | .addCb ev => ev
  | .removeCb ev _ => ev

/-- The loop of `EventManager.fire` over `callbacks.iteritems()`.  Python 2's
`iteritems` is a live view: each `next()` call (including the final one that
would end the loop) compares the dict's current size against its size when
the iterator was created and raises `RuntimeError` when they differ.  The
accumulated invocation log records each callback called, with the arguments
`(self.cardinal, *params)` it received. -/
def fireLoop (card : PyObj) (name : String) (params : List PyObj) (origSize : Nat) :
    List (String × PyCallable) → EMState → Bool → List (String × List PyObj) →
    EMState × List (String × List PyObj) × Except FireErr Bool
  | [], st, acc, log =>
    if ((alookup name st.callbacks).getD []).length ≠ origSize then
      (st, log, .error .runtimeError)
    else (st, log, .ok acc)
  | (cid, cb) :: rest, st, acc, log =>
    if ((alookup name st.callbacks).getD []).length ≠ origSize then
      (st, log, .error .runtimeError)
    else
      let log1 := log ++ [(cid, card :: params)]
      let step :=
        match cb.beh.reenter with
        | none => (st, false)
        | some m => applyMut st m
      let acc1 :=
        if step.2 then acc
        else
          match cb.beh.outcome with
          | .ret => true
          | _ => acc
      fireLoop card name params origSize rest step.1 acc1 log1

/-- `EventManager.fire`: undeclared names raise `EventDoesNotExistError`;
otherwise the callback dict is iterated, each callback invoked with the host
context followed by the parameters, reject signals and other exceptions
swallowed, and the accepted flag returned. -/
def fire (st : EMState) (name : String) (params : List PyObj) :
    EMState × List (String × List PyObj) × Except FireErr Bool :=
  if amember name st.events then
    match alookup name st.callbacks with
    | none => (st, [], .error .keyError)
    | some d => fireLoop st.cardinal name params d.length d st false []
  else (st, [], .error .doesNotExist)

/-- Reachable-state invariant: every declared event has a callback dict
(`register` creates it, `remove` deletes both together). -/
def wfEM (st : EMState) : Bool :=
  st.events.all (fun p => amember p.1 st.callbacks)

/-! ### Plugin manager: configuration loading -/

/-- A parsed configuration value; `truthy` is the Python truthiness the code
tests with `if json_config:` (e.g. an empty dict is falsy). -/
structure ConfigVal where
  tag : Nat
  truthy : Bool
deriving DecidableEq, Repr

/-- State of one on-disk config file: missing (or unreadable: `IOError`),
present but unparsable (the `ValueError` the code catches), or parsed to a
value. -/
inductive FileRes
  | absent
  | invalid
  | parsed (v : ConfigVal)
deriving DecidableEq, Repr

/-- Exceptions of `_load_plugin_config`. -/
inductive CfgErr
  | notFound
  | ambiguous
deriving DecidableEq, Repr

def optTruthy : Option ConfigVal → Bool
  | none => false
  | some v => v.truthy

/-- `PluginManager._load_plugin_config`: the JSON file is read first into
`json_config` (initialised to the sentinel `False`, so a falsy parsed value
is indistinguishable from absence); if the YAML file loads, an
`AmbiguousConfigError` is raised when `json_config` is truthy and otherwise
the YAML value is returned; if the YAML file did not load, a truthy JSON
value is returned and anything else raises `ConfigNotFoundError`. -/
def load_plugin_config (jsonFile yamlFile : FileRes) : Except CfgErr ConfigVal :=
  let json_config : Option ConfigVal :=
    match jsonFile with
    | .parsed v => some v
    | _ => none
  match yamlFile with
  | .parsed yv =>
    if optTruthy json_config then .error .ambiguous else .ok yv
  | _ =>
    match json_config with
    | some v => if v.truthy then .ok v else .error .notFound
    | none => .error .notFound

/-! ### Plugin manager: registry, lifecycle, command routing -/

/-- A command handler discovered on a plugin instance: an optional `regex`
attribute (embedded as the predicate `re.search(regex, message)` computes)
and an optional `commands` attribute (list of literal names). -/
structure Command where
  regex : Option (String → Bool)
  commands : Option (List String)

/-- A plugin module as the loader observes it: the arity of its `setup`
function (`none` when `setup` is missing or not a function), the argument
count of the instance's `close` method if any, the command handlers
discovered on the instance `setup` returns, and the two config files. -/
structure Module where
  setup : Option Nat
  closeNargs : Option Nat
  cmds : List Command
  jsonCfg : FileRes
  yamlCfg : FileRes

/-- One entry of `self.plugins`. -/
structure PluginEntry where
  name : String
  module : Module
  commands : List Command
  config : Option ConfigVal
  blacklist : List String

/-- `PluginManager` state: the plugin registry and the host-wide
`cardinal.reloads` counter. -/
structure PMState where
  plugins : List (String × PluginEntry)
  reloads : Nat

/-- Per-plugin pipeline failures (each aggregated `DeferredList` slot carries
the exception with the plugin name attached). -/
inductive PMErr
  | importError
  | ambiguousConfig
  | pluginError
  | neverLoaded
deriving DecidableEq, Repr

/-- One slot of the aggregate `DeferredList` result. -/
inductive LoadResult
  | success (name : String)
  | failure (e : PMErr) (name : String)

/-- `_create_plugin_instance` viewed as a check: missing/non-function `setup`
is a `PluginError`; `setup` taking zero, one, or two arguments succeeds (with
nothing, the host context, or host context plus config injected); any larger
arity is a `PluginError`. -/
def createInstance (m : Module) : Except PMErr Unit :=
  match m.setup with
  | none => .error .pluginError
  | some a => if a ≤ 2 then .ok () else .error .pluginError

/-- One plugin's load pipeline (`PluginManager.load` loop body): on a reload
the old instance's `close` is invoked best-effort (failures logged and
swallowed, no registry effect) and the existing module handle is reused,
otherwise the module is imported from the environment `env` (`none` models
a failed import); then the config is loaded (`ConfigNotFoundError` is caught
and leaves the config `none`, `AmbiguousConfigError` fails the pipeline), the
instance is created, commands are discovered, and the entry is installed,
bumping the reload counter on a reload.  A failed pipeline leaves the state
untouched. -/
def loadPipeline (env : String → Option Module) (st : PMState) (name : String) :
    Except PMErr PMState :=
  let isReload := amember name st.plugins
  let modRes : Except PMErr Module :=
    if isReload then
      match alookup name st.plugins with
      | some entry => .ok entry.module
      | none => .error .pluginError
    else
      match env name with
      | some m => .ok m
      | none => .error .importError
  match modRes with
  | .error e => .error e
  | .ok m =>
    let cfgRes : Except PMErr (Option ConfigVal) :=
      match load_plugin_config m.jsonCfg m.yamlCfg with
      | .ok v => .ok (some v)
      | .error .notFound => .ok none
      | .error .ambiguous => .error .ambiguousConfig
    match cfgRes with
    | .error e => .error e
    | .ok config =>
      match createInstance m with
      | .error e => .error e
      | .ok _ =>
        let entry : PluginEntry := ⟨name, m, m.cmds, config, []⟩
        .ok { plugins := aset name entry st.plugins,
              reloads := st.reloads + (if isReload then 1 else 0) }

/-- A failed pipeline is captured by the errback and leaves the registry and
the reload counter untouched; a successful one installs the new state. -/
def loadOne (env : String → Option Module) (st : PMState) (name : String) :
    PMState × LoadResult :=
  match loadPipeline env st name with
  | .ok st1 => (st1, .success name)
  | .error e => (st, .failure e name)

/-- `PluginManager.load` over a batch of names: each name runs its pipeline
independently and contributes one slot to the aggregate result. -/
def load (env : String → Option Module) (st : PMState) :
    List String → PMState × List LoadResult
  | [] => (st, [])
  | n :: rest =>
    let s1 := loadOne env st n
    let s2 := load env s1.1 rest
    (s2.1, s1.2 :: s2.2)

/-- One plugin's unload step: a never-loaded name contributes a failed slot
and leaves the state untouched; a loaded name has its `close` hook invoked
best-effort (failures logged and swallowed, never blocking removal) and its
entry deleted. -/
def unloadOne (st : PMState) (name : String) : PMState × LoadResult :=
  if amember name st.plugins then
    ({ st with plugins := aremove name st.plugins }, .success name)
  else (st, .failure .neverLoaded name)

/-- `PluginManager.unload` over a batch of names.  The source accepts a
`keep_entry` flag but never reads it: removal is unconditional. -/
def unload (st : PMState) (names : List String) (keep_entry : Bool) :
    PMState × List LoadResult :=
  match names with
  | [] => (st, [])
  | n :: rest =>
    let s1 := unloadOne st n
    let s2 := unload s1.1 rest keep_entry
    (s2.1, s1.2 :: s2.2)

/-- `PluginManager.blacklist`: `False` for an unknown plugin, otherwise the
channels are appended (`list.extend`) to the plugin's blacklist list. -/
def blacklist (st : PMState) (plugin : String) (channels : List String) :
    Option PMState :=
  match alookup plugin st.plugins with
  | none => none
  | some entry =>
    let entry1 := { entry with blacklist := entry.blacklist ++ channels }
    some { st with plugins := aset plugin entry1 st.plugins }

/-- The loop of `PluginManager.unblacklist`: each requested channel not in
the (mutating) blacklist is recorded as not blacklisted, and each present one
has its first occurrence removed (`list.remove`). -/
def unblacklistLoop (bl : List String) : List String → List String × List String
  | [] => (bl, [])
  | c :: cs =>
    if bl.contains c then unblacklistLoop (bl.erase c) cs
    else
      let r := unblacklistLoop bl cs
      (r.1, c :: r.2)

/-- `PluginManager.unblacklist`: `none` (Python `False`) for an unknown
plugin, otherwise the list of requested channels that were not blacklisted,
together with the updated state. -/
def unblacklist (st : PMState) (plugin : String) (channels : List String) :
    Option (List String × PMState) :=
  match alookup plugin st.plugins with
  | none => none
  | some entry =>
    let r := unblacklistLoop entry.blacklist channels
    let entry1 := { entry with blacklist := r.1 }
    some (r.2, { st with plugins := aset plugin entry1 st.plugins })

/-- `PluginManager.itercommands`: all commands of loaded plugins, skipping
plugins whose blacklist contains the channel. -/
def itercommands (st : PMState) (channel : Option String) : List Command :=
  (st.plugins.filter (fun p =>
      match channel with
      | some ch => !(p.2.blacklist.contains ch)
      | none => true)).flatMap (fun p => p.2.commands)

/-! ### Command routing: the two canonical parses and the dispatch sweep -/

/-- The character class `[A-Za-z0-9_-]` of both command regexes. -/
def isCmdChar (c : Char) : Bool :=
  (c.isAlpha && c.toNat < 128) || c.isDigit || c == '_' || c == '-'

/-- Python's regex `\s` class. -/
def pySpace (c : Char) : Bool :=
  c == ' ' || c == '\t' || c == '\n' || c == '\x0b' || c == '\x0c' || c == '\r'

/-- Prefix parse, `re.match` of `\.(([A-Za-z0-9_-]+)\s?.*$)` on a
newline-free message: a leading period followed by a nonempty maximal token
run; `group(2)` is the token. -/
def triggerParse : List Char → Option String
  | '.' :: rest =>
    let tok := rest.takeWhile isCmdChar
    if tok.isEmpty then none else some (String.mk tok)
  | _ => none

/-- Case-insensitive match of the bot nickname followed by a colon
(the `%s:` part of the natural regex, with an alphanumeric nickname). -/
def stripNickColon : List Char → List Char → Option (List Char)
  | [], ':' :: rest => some rest
  | n :: ns, m :: ms => if n.toLower == m.toLower then stripNickColon ns ms else none
  | _, _ => none

/-- Natural parse, case-insensitive `re.match` of
`%s:\s+(([A-Za-z0-9_-]+?)(\s(.*)|$))` on a newline-free message: the
nickname, a colon, at least one whitespace, then a nonempty token that must
be followed by whitespace or the end of the message; `group(2)` is the
token. -/
def naturalParse (nick : String) (msg : List Char) : Option String :=
  match stripNickColon nick.data msg with
  | none => none
  | some rest =>
    match rest with
    | [] => none
    | c :: _ =>
      if !pySpace c then none
      else
        let afterSpace := rest.dropWhile pySpace
        let tok := afterSpace.takeWhile isCmdChar
        if tok.isEmpty then none
        else
          match afterSpace.drop tok.length with
          | [] => some (String.mk tok)
          | c2 :: _ => if pySpace c2 then some (String.mk tok) else none

/-- The canonical parse of `call_command`: the prefix regex is tried first
and the natural regex only when it fails; the result is the command token
(`group(2)`). -/
def getCommandToken (nick : String) (msg : String) : Option String :=
  match triggerParse msg.data with
  | some t => some t
  | none => naturalParse nick msg.data

/-- The dispatch sweep of `call_command` over the commands `itercommands`
yields: a command with a matching `regex` attribute is invoked (and the name
rule for it skipped); otherwise, when a canonical parse succeeded and the
token is among the command's `commands` attribute, it is invoked.  Returns
the commands invoked, in order, and the `called_command` flag. -/
def sweep (tok : Option String) (msg : String) :
    List Command → List Command × Bool
  | [] => ([], false)
  | c :: cs =>
    if (c.regex.map (fun f => f msg)).getD false then
      let r := sweep tok msg cs
      (c :: r.1, true)
    else
      match tok with
      | none => sweep tok msg cs
      | some t =>
        if (c.commands.map (fun l => l.contains t)).getD false then
          let r := sweep tok msg cs
          (c :: r.1, true)
        else sweep tok msg cs

/-- Result of `call_command`: the handlers invoked (each with the host
context, user, channel and raw message) and, when raised, the
`CommandNotFoundError` payload (the original message). -/
structure CCResult where
  invoked : List Command
  notFound : Option String

/-- `PluginManager.call_command`: parse, sweep all non-blacklisted commands,
and raise `CommandNotFoundError` exactly when a canonical parse succeeded but
nothing was called. -/
def call_command (st : PMState) (nick : String) (user : String)
    (channel : String) (msg : String) : CCResult :=
  let tok := getCommandToken nick msg
  let r := sweep tok msg (itercommands st (some channel))
  if tok.isNone || r.2 then ⟨r.1, none⟩
  else ⟨r.1, some msg⟩

/-! ### Helper lemmas -/

theorem alookup_mem {α : Type} {k : String} {v : α} {l : List (String × α)}
    (h : alookup k l = some v) : (k, v) ∈ l := by
  induction l with
  | nil => simp [alookup] at h
  | cons p rest ih =>
    obtain ⟨k2, v2⟩ := p
    by_cases hk : k = k2
    · subst hk
      simp [alookup] at h
      simp [h]
    · simp [alookup, hk] at h
      simp [ih h]

theorem wfEM_lookup {st : EMState} (hwf : wfEM st = true) {name : String}
    (h : amember name st.events = true) :
    ∃ d, alookup name st.callbacks = some d := by
  unfold amember at h
  obtain ⟨k, hk⟩ := Option.isSome_iff_exists.mp h
  have hmem := alookup_mem hk
  have := (List.all_eq_true.mp hwf) (name, k) hmem
  simp [amember] at this
  exact Option.isSome_iff_exists.mp this

theorem genFreshId_isSome {supply : Nat → String} {fuel : Nat} {used : List String}
    (h : ∃ j, j < fuel ∧ used.contains (supply j) = false) :
    ∃ cid, genFreshId supply fuel used = some cid := by
  obtain ⟨j, hj, hfree⟩ := h
  unfold genFreshId
  rw [← Option.isSome_iff_exists, List.find?_isSome]
  refine ⟨supply j, ?_, ?_⟩
  · exact List.mem_map_of_mem supply (List.mem_range.mpr hj)
  · simpa using hfree

theorem addCallback_ok {st : EMState} {supply : Nat → String} {fuel : Nat}
    {ev : String} (cb : PyCallable) {d : List (String × PyCallable)}
    (hd : alookup ev st.callbacks = some d)
    (hfresh : ∃ j, j < fuel ∧ (d.map Prod.fst).contains (supply j) = false) :
    ∃ cid st1, addCallback st supply fuel ev cb = .ok (cid, st1) := by
  obtain ⟨cid, hcid⟩ := genFreshId_isSome hfresh
  exact ⟨cid, { st with callbacks := aset ev (d ++ [(cid, cb)]) st.callbacks },
    by simp [addCallback, hd, hcid]⟩

/-! ### Claim C1: fire broadcast semantics -/

/-- Whether a callback's outcome is a normal return (the only outcome that
sets the accepted flag). -/
def isRet : CbOutcome → Bool
  | .ret => true
  | _ => false

theorem fireLoop_pure (card : PyObj) (name : String) (params : List PyObj)
    (origSize : Nat) :
    ∀ (snap : List (String × PyCallable)) (st : EMState) (acc : Bool)
      (log : List (String × List PyObj)),
    ((alookup name st.callbacks).getD []).length = origSize →
    (∀ p ∈ snap, p.2.beh.reenter = none) →
    fireLoop card name params origSize snap st acc log =
      (st, log ++ snap.map (fun p => (p.1, card :: params)),
       .ok (acc || snap.any (fun p => isRet p.2.beh.outcome))) := by
  intro snap
  induction snap with
  | nil =>
    intro st acc log hsize _
    simp [fireLoop, hsize]
  | cons hd tl ih =>
    intro st acc log hsize hpure
    obtain ⟨cid, cb⟩ := hd
    have hre : cb.beh.reenter = none := hpure (cid, cb) (List.mem_cons_self _ _)
    have htl : ∀ p ∈ tl, p.2.beh.reenter = none :=
      fun p hp => hpure p (List.mem_cons_of_mem _ hp)
    have step := ih st (acc || isRet cb.beh.outcome)
      (log ++ [(cid, card :: params)]) hsize htl
    have hone :
        fireLoop card name params origSize ((cid, cb) :: tl) st acc log =
          fireLoop card name params origSize tl st
            (acc || isRet cb.beh.outcome)
            (log ++ [(cid, card :: params)]) := by
      simp [fireLoop, hsize, hre]
      cases cb.beh.outcome <;> simp [isRet]
    rw [hone, step]
    simp [Bool.or_assoc]

/-- Claim C1: for a declared event (in a reachable, well-formed bus state,
with callbacks that do not reentrantly mutate the bus — that case is claim
C10), `fire` invokes every currently subscribed callback exactly once,
passing the host context followed by the parameters, never short-circuiting;
reject signals and other exceptions are swallowed (they merely leave the
accepted flag unset); the result is `true` iff at least one callback
returned normally, hence `false` with zero subscribers; and
`EventDoesNotExistError` is raised exactly when the name is not declared. -/
theorem fire_broadcast_spec (st : EMState) (name : String) (params : List PyObj)
    (hwf : wfEM st = true)
    (hpure : ∀ p ∈ (alookup name st.callbacks).getD [], p.2.beh.reenter = none) :
    (amember name st.events = false →
       fire st name params = (st, [], .error .doesNotExist))
    ∧ (amember name st.events = true →
       fire st name params =
         (st,
          ((alookup name st.callbacks).getD []).map
            (fun p => (p.1, st.cardinal :: params)),
          .ok (((alookup name st.callbacks).getD []).any
                 (fun p => isRet p.2.beh.outcome)))) := by
  constructor
  · intro h
    simp [fire, h]
  · intro h
    obtain ⟨d, hd⟩ := wfEM_lookup hwf h
    have run := fireLoop_pure st.cardinal name params d.length d st false []
      (by simp [hd]) (by simpa [hd] using hpure)
    simp [fire, h, hd, run]

def cbAccepts : PyCallable := ⟨true, 2, false, false, ⟨none, CbOutcome.ret⟩⟩

def cbRejects : PyCallable := ⟨true, 2, false, false, ⟨none, CbOutcome.reject⟩⟩

def cbErrors : PyCallable := ⟨true, 2, false, false, ⟨none, CbOutcome.err⟩⟩

def stGreeted : EMState :=
  ⟨PyObj.obj 0, [("greeted", 1)],
   [("greeted", [("a", cbAccepts), ("b", cbRejects), ("c", cbErrors)])]⟩

/-- Witness for C1, the spec's scenario: callbacks A (accepts), B (rejects),
C (errors) are each invoked once with the host context and the parameter,
and `fire` returns `true`. -/
theorem fire_broadcast_spec_witness :
    fire stGreeted "greeted" [PyObj.obj 7] =
      (stGreeted,
       [("a", [PyObj.obj 0, PyObj.obj 7]), ("b", [PyObj.obj 0, PyObj.obj 7]),
        ("c", [PyObj.obj 0, PyObj.obj 7])],
       .ok true) := by
  have h := (fire_broadcast_spec stGreeted "greeted" [PyObj.obj 7]
    (by decide) (by decide)).2 (by decide)
  exact h

/-! ### Claim C2: callback registration for an undeclared event -/

def emEmpty : EMState := ⟨PyObj.obj 0, [], []⟩

def cbLambda : PyCallable := ⟨true, 1, false, false, ⟨none, CbOutcome.ret⟩⟩

/-- Claim C2 (code bug): registering a callable callback for a never-declared
event does not store it — `_add_callback` evaluates
`callback_id in self.registered_callbacks[event_name]` on a dict that only
`register` ever creates, so a `KeyError` escapes instead of the documented
"we will still register the callback" behaviour. -/
theorem register_callback_undeclared_keyerror :
    register_callback emEmpty (fun _ => "ABC123") 5 "myevent" cbLambda =
      .error .keyError := rfl

/-! ### Claim C10: reentrant mutation during fire -/

theorem applyMut_other {st : EMState} {m : Mut} (name : String)
    (h : mutTarget m ≠ name) :
    alookup name (applyMut st m).1.callbacks = alookup name st.callbacks := by
  cases m with
  | addCb ev =>
    have hne : name ≠ ev := by
      simp [mutTarget] at h
      exact fun e => h e.symm
    simp only [applyMut]
    cases halo : alookup ev st.callbacks with
    | none => rfl
    | some d => simp [alookup_aset_ne name ev _ _ hne]
  | removeCb ev cid =>
    have hne : name ≠ ev := by
      simp [mutTarget] at h
      exact fun e => h e.symm
    simp only [applyMut]
    cases halo : alookup ev st.callbacks with
    | none => rfl
    | some d =>
      by_cases hc : amember cid d = true <;>
        simp [hc, alookup_aset_ne name ev _ _ hne]

theorem fireLoop_other (card : PyObj) (name : String) (params : List PyObj)
    (origSize : Nat) :
    ∀ (snap : List (String × PyCallable)) (st : EMState) (acc : Bool)
      (log : List (String × List PyObj)),
    ((alookup name st.callbacks).getD []).length = origSize →
    (∀ p ∈ snap, (p.2.beh.reenter.map mutTarget) ≠ some name) →
    ∃ st1 b,
      fireLoop card name params origSize snap st acc log =
        (st1, log ++ snap.map (fun p => (p.1, card :: params)), .ok b)
      ∧ alookup name st1.callbacks = alookup name st.callbacks := by
  intro snap
  induction snap with
  | nil =>
    intro st acc log hsize _
    exact ⟨st, acc, by simp [fireLoop, hsize], rfl⟩
  | cons hd tl ih =>
    intro st acc log hsize hother
    obtain ⟨cid, cb⟩ := hd
    have hh := hother (cid, cb) (List.mem_cons_self _ _)
    have htl : ∀ p ∈ tl, (p.2.beh.reenter.map mutTarget) ≠ some name :=
      fun p hp => hother p (List.mem_cons_of_mem _ hp)
    cases hre : cb.beh.reenter with
    | none =>
      obtain ⟨st2, b2, hrun, hpres2⟩ :=
        ih st (match cb.beh.outcome with | CbOutcome.ret => true | _ => acc)
          (log ++ [(cid, card :: params)]) hsize htl
      refine ⟨st2, b2, ?_, hpres2⟩
      simp [fireLoop, hsize, hre, hrun]
    | some m =>
      have hmt : mutTarget m ≠ name := by
        intro he
        exact hh (by simp [hre, he])
      have hpres : alookup name (applyMut st m).1.callbacks =
          alookup name st.callbacks := applyMut_other name hmt
      have hsize1 : ((alookup name (applyMut st m).1.callbacks).getD []).length =
          origSize := by rw [hpres]; exact hsize
      obtain ⟨st2, b2, hrun, hpres2⟩ :=
        ih (applyMut st m).1
          (if (applyMut st m).2 then acc
           else match cb.beh.outcome with | CbOutcome.ret => true | _ => acc)
          (log ++ [(cid, card :: params)]) hsize1 htl
      refine ⟨st2, b2, ?_, hpres2.trans hpres⟩
      simp [fireLoop, hsize, hre, hrun]

/-- Claim C10 (amended): `fire` iterates a live view, not a snapshot.
Callbacks whose reentrant calls touch only events other than the one being
fired never make `fire` error or skip callbacks: the broadcast completes and
every callback subscribed at the start of the call is invoked exactly once
with the host context and parameters.  (Mutating the fired event's own
callback set instead raises `RuntimeError`: see the counterexample.) -/
theorem fire_reentrant_spec_amended (st : EMState) (name : String)
    (params : List PyObj)
    (hwf : wfEM st = true)
    (hev : amember name st.events = true)
    (hother : ∀ p ∈ (alookup name st.callbacks).getD [],
        (p.2.beh.reenter.map mutTarget) ≠ some name) :
    ∃ st1 b,
      fire st name params =
        (st1,
         ((alookup name st.callbacks).getD []).map
           (fun p => (p.1, st.cardinal :: params)),
         .ok b) := by
  obtain ⟨d, hd⟩ := wfEM_lookup hwf hev
  obtain ⟨st1, b, hrun, _⟩ := fireLoop_other st.cardinal name params d.length d
    st false [] (by simp [hd]) (by simpa [hd] using hother)
  exact ⟨st1, b, by simp [fire, hev, hd, hrun]⟩

def cbReentrant : PyCallable :=
  ⟨true, 1, false, false, ⟨some (Mut.addCb "e"), CbOutcome.ret⟩⟩

def stLive : EMState :=
  ⟨PyObj.obj 0, [("e", 0)], [("e", [("id1", cbReentrant)])]⟩

/-- Counterexample to C10 as stated: one callback subscribed to event `"e"`
registers a new callback for `"e"` itself mid-broadcast; the live
`iteritems` view detects the size change at the next step and `fire` raises
`RuntimeError` instead of returning — so iteration is not over a snapshot
and reentrant mutation can make `fire` error. -/
theorem fire_reentrant_counterexample :
    (fire stLive "e" []).2.1 = [("id1", [PyObj.obj 0])]
    ∧ (fire stLive "e" []).2.2 = .error .runtimeError := ⟨rfl, rfl⟩

def cbCross : PyCallable :=
  ⟨true, 1, false, false, ⟨some (Mut.addCb "f"), CbOutcome.ret⟩⟩

def stCross : EMState :=
  ⟨PyObj.obj 0, [("e", 0), ("f", 0)], [("e", [("x", cbCross)]), ("f", [])]⟩

/-- Witness for the amended C10: a callback that registers a callback for a
different event `"f"` mid-broadcast does not disturb the broadcast of
`"e"`. -/
theorem fire_reentrant_spec_amended_witness :
    ∃ st1 b, fire stCross "e" [] = (st1, [("x", [PyObj.obj 0])], .ok b) := by
  have h := fire_reentrant_spec_amended stCross "e" []
    (by decide) (by decide) (by decide)
  exact h

/-! ### Claim C4: callback arity validation for a declared event -/

/-- Claim C4: for an event declared with `required_params = k` (in a
well-formed state, with a random-id supply that eventually yields a fresh
id), registering a callable fixed-arity callback of effective arity `k`
fails with the arity error, one of effective arity `k + 1` succeeds, and a
varargs callback always succeeds. -/
theorem register_callback_arity_spec (st : EMState) (supply : Nat → String)
    (fuel : Nat) (name : String) (k : Int) (cb : PyCallable)
    (hev : alookup name st.events = some k)
    (hc : cb.isCallable = true)
    (hwf : wfEM st = true)
    (hfresh : ∃ j, j < fuel ∧
       (((alookup name st.callbacks).getD []).map Prod.fst).contains (supply j)
         = false) :
    (effArity cb = k ∧ cb.varargs = false →
       register_callback st supply fuel name cb = .error .arityMismatch)
    ∧ (effArity cb = k + 1 →
       ∃ cid st1, register_callback st supply fuel name cb = .ok (cid, st1))
    ∧ (cb.varargs = true →
       ∃ cid st1, register_callback st supply fuel name cb = .ok (cid, st1)) := by
  have hmem : amember name st.events = true := by simp [amember, hev]
  obtain ⟨d, hd⟩ := wfEM_lookup hwf hmem
  have hfresh2 : ∃ j, j < fuel ∧ (d.map Prod.fst).contains (supply j) = false := by
    simpa [hd] using hfresh
  refine ⟨?_, ?_, ?_⟩
  · rintro ⟨ha, hv⟩
    have hne : ((cb.nargs : Int) - (if cb.isMethod then 1 else 0)) ≠ k + 1 := by
      rw [show ((cb.nargs : Int) - (if cb.isMethod then 1 else 0)) = effArity cb
        from rfl, ha]
      omega
    simp [register_callback, hc, hmem, hev, hv, hne]
  · intro ha
    have heq : ((cb.nargs : Int) - (if cb.isMethod then 1 else 0)) = k + 1 := ha
    obtain ⟨cid, st1, hok⟩ := addCallback_ok cb hd hfresh2
    exact ⟨cid, st1, by simp [register_callback, hc, hmem, hev, heq, hok]⟩
  · intro hv
    obtain ⟨cid, st1, hok⟩ := addCallback_ok cb hd hfresh2
    by_cases hne : ((cb.nargs : Int) - (if cb.isMethod then 1 else 0)) = k + 1 <;>
      exact ⟨cid, st1, by simp [register_callback, hc, hmem, hev, hv, hne, hok]⟩

def stArity : EMState := ⟨PyObj.obj 0, [("e", 1)], [("e", [])]⟩

def cbTwoArgs : PyCallable := ⟨true, 2, false, false, ⟨none, CbOutcome.ret⟩⟩

def cbOneArg : PyCallable := ⟨true, 1, false, false, ⟨none, CbOutcome.ret⟩⟩

/-- Witness for C4 on an event with `required_params = 1`: a two-argument
callback registers, a one-argument one is rejected with the arity error. -/
theorem register_callback_arity_spec_witness :
    register_callback stArity (fun _ => "ID") 1 "e" cbOneArg =
      .error .arityMismatch
    ∧ ∃ cid st1, register_callback stArity (fun _ => "ID") 1 "e" cbTwoArgs =
        .ok (cid, st1) := by
  constructor
  · exact (register_callback_arity_spec stArity (fun _ => "ID") 1 "e" 1 cbOneArg
      rfl rfl (by decide) ⟨0, by omega, rfl⟩).1 ⟨rfl, rfl⟩
  · exact (register_callback_arity_spec stArity (fun _ => "ID") 1 "e" 1 cbTwoArgs
      rfl rfl (by decide) ⟨0, by omega, rfl⟩).2.1 (by decide)

/-! ### Claim C5: event declaration -/

def exceptOk {ε α : Type} : Except ε α → Bool
  | .ok _ => true
  | .error _ => false

/-- Counterexample to C5 as stated: `register` accepts the negative count
`-1` (the code checks only `isinstance(required_params, (int, long))`, never
non-negativity) and declares the event with it. -/
theorem register_negative_accepted :
    (-1 : Int) < 0
    ∧ register emEmpty "e" (PyNum.int (-1)) =
        .ok ⟨PyObj.obj 0, [("e", -1)], [("e", [])]⟩ := ⟨by decide, rfl⟩

/-- Claim C5 (amended): `register` fails exactly when the name is already
declared or the count is not an integer — negative integers are accepted —
and otherwise declares the event with the given count. -/
theorem register_spec_amended (st : EMState) (name : String) (rp : PyNum) :
    (exceptOk (register st name rp) = (!amember name st.events && rp.isInt))
    ∧ (∀ k : Int, amember name st.events = false →
        register st name (.int k) =
          .ok { st with
                events := aset name k st.events,
                callbacks :=
                  if amember name st.callbacks then st.callbacks
                  else aset name [] st.callbacks }) := by
  constructor
  · by_cases h : amember name st.events = true
    · simp [register, h, exceptOk]
    · cases rp <;> simp_all [register, exceptOk, PyNum.isInt]
  · intro k h
    simp [register, h]

def emOther : EMState := ⟨PyObj.obj 0, [("x", 2)], [("x", [])]⟩

/-- Witness for the amended C5: declaring a fresh event succeeds and stores
its parameter count. -/
theorem register_spec_amended_witness :
    amember "e" emOther.events = false
    ∧ register emOther "e" (PyNum.int 3) =
        .ok ⟨PyObj.obj 0, [("x", 2), ("e", 3)], [("x", []), ("e", [])]⟩ := by
  constructor
  · rfl
  · exact (register_spec_amended emOther "e" (PyNum.int 3)).2 3 rfl

/-! ### Claim C6: config presence, absence and ambiguity -/

def modNoCfg : Module := ⟨some 1, none, [], FileRes.absent, FileRes.absent⟩

def pmEmpty : PMState := ⟨[], 0⟩

/-- Claim C6 (code bug): presence of a config file is tested by Python
truthiness, so when the JSON config parses to a falsy value (such as an
empty object) while a YAML config is also present, `_load_plugin_config`
returns the YAML value instead of raising the documented
`AmbiguousConfigError` — both configs exist but no ambiguity is signalled.
The absence half of the claim does hold: with neither file present the
distinct not-found condition is raised, and the plugin still loads with no
configuration stored. -/
theorem config_truthiness_bug :
    load_plugin_config (FileRes.parsed ⟨0, false⟩) (FileRes.parsed ⟨1, true⟩) =
      .ok ⟨1, true⟩
    ∧ load_plugin_config FileRes.absent FileRes.absent = .error .notFound
    ∧ loadOne (fun _ => some modNoCfg) pmEmpty "p" =
        (⟨[("p", ⟨"p", modNoCfg, [], none, []⟩)], 0⟩, .success "p") :=
  ⟨rfl, rfl, rfl⟩

/-! ### Claim C7: per-name failure isolation in load and unload batches -/

theorem load_length (env : String → Option Module) :
    ∀ (names : List String) (st : PMState),
    (load env st names).2.length = names.length := by
  intro names
  induction names with
  | nil => intro st; rfl
  | cons n rest ih => intro st; simp [load, ih]

theorem unload_length (b : Bool) :
    ∀ (names : List String) (st : PMState),
    (unload st names b).2.length = names.length := by
  intro names
  induction names with
  | nil => intro st; rfl
  | cons n rest ih => intro st; simp [unload, ih]

theorem loadOne_fail_state (env : String → Option Module) (st : PMState)
    (n : String) (e : PMErr) (nm : String)
    (h : (loadOne env st n).2 = .failure e nm) : (loadOne env st n).1 = st := by
  cases hp : loadPipeline env st n <;> simp [loadOne, hp] at h ⊢

/-- Claim C7: `load` and `unload` aggregate exactly one outcome per
requested name; a name whose pipeline fails leaves the registry untouched,
so it never aborts or changes the remaining names' outcomes; in particular
unloading a never-loaded name yields that one failed slot while the rest of
the batch is processed exactly as it would have been without it. -/
theorem batch_isolation_spec (env : String → Option Module) (st : PMState)
    (names : List String) (b : Bool) :
    ((load env st names).2.length = names.length)
    ∧ ((unload st names b).2.length = names.length)
    ∧ (∀ n rest, amember n st.plugins = false →
        unload st (n :: rest) b =
          ((unload st rest b).1,
           .failure .neverLoaded n :: (unload st rest b).2))
    ∧ (∀ n rest e nm, (loadOne env st n).2 = .failure e nm →
        load env st (n :: rest) =
          ((load env st rest).1, .failure e nm :: (load env st rest).2)) := by
  refine ⟨load_length env names st, unload_length b names st, ?_, ?_⟩
  · intro n rest h
    simp [unload, unloadOne, h]
  · intro n rest e nm h
    have hst := loadOne_fail_state env st n e nm h
    simp only [load]
    rw [hst, h]

/-- Witness for C7: unloading the never-loaded name `"ghost"` produces a
single failed slot and leaves the processing of `"ghost2"` untouched. -/
theorem batch_isolation_spec_witness :
    amember "ghost" pmEmpty.plugins = false
    ∧ unload pmEmpty ["ghost", "ghost2"] false =
        ((unload pmEmpty ["ghost2"] false).1,
         .failure .neverLoaded "ghost" :: (unload pmEmpty ["ghost2"] false).2) :=
  ⟨rfl, (batch_isolation_spec (fun _ => none) pmEmpty [] false).2.2.1
    "ghost" ["ghost2"] rfl⟩

/-! ### Claim C9: the keep_entry flag and unconditional removal -/

theorem unload_keep_entry_irrel :
    ∀ (names : List String) (st : PMState) (b : Bool),
    unload st names b = unload st names false := by
  intro names
  induction names with
  | nil => intro st b; rfl
  | cons n rest ih => intro st b; simp [unload, ih]

theorem amember_aremove_le {α : Type} (n m : String) (l : List (String × α))
    (h : amember n (aremove m l) = true) : amember n l = true := by
  unfold amember at h ⊢
  rw [alookup_aremove] at h
  by_cases he : n = m
  · simp [he] at h
  · simpa [he] using h

theorem unload_no_new :
    ∀ (names : List String) (st : PMState) (b : Bool) (n : String),
    amember n (unload st names b).1.plugins = true →
    amember n st.plugins = true := by
  intro names
  induction names with
  | nil => intro st b n h; exact h
  | cons m rest ih =>
    intro st b n h
    simp only [unload] at h
    have h1 := ih (unloadOne st m).1 b n h
    unfold unloadOne at h1
    by_cases hm : amember m st.plugins = true
    · simp only [hm, if_true] at h1
      exact amember_aremove_le n m st.plugins h1
    · simpa [hm] using h1

theorem unloadOne_removes (st : PMState) (n : String) :
    amember n (unloadOne st n).1.plugins = false := by
  unfold unloadOne
  by_cases hm : amember n st.plugins = true
  · simp only [hm, if_true]
    simp [amember, alookup_aremove]
  · simp [hm]

/-- Claim C9: the `keep_entry` flag of `unload` has no observable effect —
the source never reads it — and a processed name is absent from the registry
afterwards, whichever value the flag had. -/
theorem unload_keep_entry_spec (st : PMState) (names : List String) (b : Bool) :
    unload st names b = unload st names false
    ∧ (∀ n, n ∈ names → amember n (unload st names b).1.plugins = false) := by
  constructor
  · exact unload_keep_entry_irrel names st b
  · have main : ∀ (ns : List String) (s : PMState) (n : String), n ∈ ns →
        amember n (unload s ns b).1.plugins = false := by
      intro ns
      induction ns with
      | nil => intro s n h; simp at h
      | cons m rest ih =>
        intro s n h
        rcases List.mem_cons.mp h with he | hr
        · subst he
          by_cases hc :
              amember n (unload (unloadOne s n).1 rest b).1.plugins = true
          · have h2 := unload_no_new rest (unloadOne s n).1 b n hc
            have h1 := unloadOne_removes s n
            rw [h2] at h1
            exact absurd h1 (by simp)
          · simp only [unload]
            simpa using hc
        · simp only [unload]
          exact ih (unloadOne s m).1 n hr
    exact fun n h => main names st n h

def modPlain : Module := ⟨some 1, none, [], FileRes.absent, FileRes.absent⟩

def pmLoaded : PMState := ⟨[("p", ⟨"p", modPlain, [], none, []⟩)], 0⟩

/-- Witness for C9: unloading the loaded plugin `"p"` with
`keep_entry = true` behaves as with `false` and removes the entry. -/
theorem unload_keep_entry_spec_witness :
    ("p" ∈ ["p"])
    ∧ unload pmLoaded ["p"] true = unload pmLoaded ["p"] false
    ∧ amember "p" (unload pmLoaded ["p"] true).1.plugins = false := by
  have h := unload_keep_entry_spec pmLoaded ["p"] true
  exact ⟨by simp, h.1, h.2 "p" (by simp)⟩

/-! ### Claim C3: CommandNotFoundError is raised iff a parse succeeded and
nothing was invoked -/

theorem sweep_flag (msg : String) (tok : Option String) :
    ∀ cmds : List Command,
    (sweep tok msg cmds).2 = !(sweep tok msg cmds).1.isEmpty := by
  intro cmds
  induction cmds with
  | nil => rfl
  | cons c cs ih =>
    cases tok with
    | none =>
      simp only [sweep]
      split
      · rfl
      · exact ih
    | some t =>
      simp only [sweep]
      split
      · rfl
      · split
        · rfl
        · exact ih

/-- Claim C3: `call_command` raises `CommandNotFoundError` carrying the
original message exactly when a canonical parse (prefix form, or the
case-insensitive nickname-colon natural form) succeeded and no handler was
invoked by either the pattern rule or the name rule across the whole sweep;
with no canonical parse it never signals failure. -/
theorem call_command_not_found_iff (st : PMState)
    (nick user channel msg : String) :
    ((call_command st nick user channel msg).notFound = some msg ↔
      ((getCommandToken nick msg).isSome = true
       ∧ (call_command st nick user channel msg).invoked = []))
    ∧ ((getCommandToken nick msg) = none →
        (call_command st nick user channel msg).notFound = none) := by
  constructor
  · cases htok : getCommandToken nick msg with
    | none => simp [call_command, htok]
    | some t =>
      have hf := sweep_flag msg (some t) (itercommands st (some channel))
      by_cases hinv : (sweep (some t) msg (itercommands st (some channel))).1 = []
      · have h2 : (sweep (some t) msg (itercommands st (some channel))).2 = false := by
          rw [hf, hinv]
          rfl
        simp [call_command, htok, h2, hinv]
      · have h2 : (sweep (some t) msg (itercommands st (some channel))).2 = true := by
          rw [hf]
          cases hcs : (sweep (some t) msg (itercommands st (some channel))).1 with
          | nil => exact absurd hcs hinv
          | cons a as => rfl
        simp [call_command, htok, h2, hinv]
  · intro h
    simp [call_command, h]

def cmdEcho : Command := ⟨none, some ["echo"]⟩

def modEcho : Module := ⟨some 1, none, [cmdEcho], FileRes.absent, FileRes.absent⟩

def entryEcho : PluginEntry := ⟨"echo", modEcho, [cmdEcho], none, []⟩

def pmEcho : PMState := ⟨[("echo", entryEcho)], 0⟩

/-- Witness for C3, the spec's scenario with bot name `"Cardinal"`: the
command-looking message `".unknown"` raises `CommandNotFoundError` carrying
the message, while plain chat `"just chatting"` raises nothing. -/
theorem call_command_not_found_iff_witness :
    (call_command pmEcho "Cardinal" "u" "#chan" ".unknown").notFound =
      some ".unknown"
    ∧ (call_command pmEcho "Cardinal" "u" "#chan" "just chatting").notFound =
        none := by
  constructor
  · exact ((call_command_not_found_iff pmEcho "Cardinal" "u" "#chan"
      ".unknown").1).mpr ⟨rfl, rfl⟩
  · exact (call_command_not_found_iff pmEcho "Cardinal" "u" "#chan"
      "just chatting").2 rfl

/-! ### Claim C8: blacklist bookkeeping under unblacklist -/

theorem unblacklistLoop_notin (bl : List String) :
    ∀ chans : List String, (∀ c ∈ chans, c ∉ bl) →
    unblacklistLoop bl chans = (bl, chans) := by
  intro chans
  induction chans with
  | nil => intro _; rfl
  | cons c cs ih =>
    intro h
    have hc : c ∉ bl := h c (List.mem_cons_self _ _)
    have hcs := ih (fun x hx => h x (List.mem_cons_of_mem _ hx))
    simp [unblacklistLoop, hc, hcs]

theorem unblacklistLoop_returns :
    ∀ (chans bl : List String), chans.Nodup →
    (unblacklistLoop bl chans).2 =
      chans.filter (fun c => !(bl.contains c)) := by
  intro chans
  induction chans with
  | nil => intro bl _; rfl
  | cons c cs ih =>
    intro bl hnd
    obtain ⟨hnotin, hnd2⟩ := List.nodup_cons.mp hnd
    by_cases hc : c ∈ bl
    · have hrec := ih (bl.erase c) hnd2
      have hfeq : cs.filter (fun x => !(decide (x ∈ bl.erase c))) =
          cs.filter (fun x => !(decide (x ∈ bl))) := by
        apply List.filter_congr
        intro x hx
        have hxc : x ≠ c := fun he => hnotin (he ▸ hx)
        simp [List.mem_erase_of_ne hxc]
      have hrec2 : (unblacklistLoop (bl.erase c) cs).2 =
          cs.filter (fun x => !(decide (x ∈ bl.erase c))) := by
        simpa using hrec
      simp [unblacklistLoop, hc, hrec2, hfeq]
    · have hrec := ih bl hnd2
      simp [unblacklistLoop, hc, hrec]

theorem unblacklistLoop_head_in {bl : List String} {a : String} (as : List String)
    (ha : a ∈ bl) :
    (unblacklistLoop bl (a :: as)).1 = (unblacklistLoop (bl.erase a) as).1 := by
  simp [unblacklistLoop, ha]

theorem unblacklistLoop_head_out {bl : List String} {a : String} (as : List String)
    (ha : a ∉ bl) :
    (unblacklistLoop bl (a :: as)).1 = (unblacklistLoop bl as).1 := by
  simp [unblacklistLoop, ha]

theorem unblacklistLoop_count :
    ∀ (chans bl : List String), chans.Nodup →
    ∀ c, ((unblacklistLoop bl chans).1).count c =
      bl.count c - (if chans.contains c then 1 else 0) := by
  intro chans
  induction chans with
  | nil => intro bl _ c; simp [unblacklistLoop]
  | cons a as ih =>
    intro bl hnd c
    obtain ⟨hnotin, hnd2⟩ := List.nodup_cons.mp hnd
    by_cases ha : a ∈ bl
    · have hrec := ih (bl.erase a) hnd2 c
      rw [unblacklistLoop_head_in as ha, hrec]
      by_cases hca : c = a
      · subst hca
        have hnas : as.contains c = false := by simp [hnotin]
        have hcc : (c :: as).contains c = true := by simp
        rw [hnas, hcc, List.count_erase_self]
        simp
      · have hcons : (a :: as).contains c = as.contains c := by simp [hca]
        rw [List.count_erase_of_ne hca bl, hcons]
    · have hrec := ih bl hnd2 c
      rw [unblacklistLoop_head_out as ha, hrec]
      by_cases hca : c = a
      · subst hca
        have h0 : bl.count c = 0 := List.count_eq_zero.mpr ha
        have hnas : as.contains c = false := by simp [hnotin]
        have hcc : (c :: as).contains c = true := by simp
        rw [h0, hnas, hcc]
        simp
      · have hcons : (a :: as).contains c = as.contains c := by simp [hca]
        rw [hcons]

/-- The plugin entry after an `unblacklist(p, chans)` call. -/
def entryAfter (entry : PluginEntry) (chans : List String) : PluginEntry :=
  { entry with blacklist := (unblacklistLoop entry.blacklist chans).1 }

/-- Claim C8 (amended): the blacklist is a list, not a set: `unblacklist`
removes one occurrence of each requested channel that is present, returns
exactly the requested channels that were not present, and repeating the same
call returns all requested channels provided each had been blacklisted at
most once; a channel blacklisted more than once remains blacklisted (and its
commands suppressed) after a single `unblacklist` naming it. -/
theorem unblacklist_spec_amended (st : PMState) (p : String)
    (chans : List String) (entry : PluginEntry)
    (hp : alookup p st.plugins = some entry)
    (hnd : chans.Nodup) :
    unblacklist st p chans =
      some (chans.filter (fun c => !(entry.blacklist.contains c)),
            { st with plugins := aset p (entryAfter entry chans) st.plugins })
    ∧ (∀ c, ((unblacklistLoop entry.blacklist chans).1).count c =
        entry.blacklist.count c - (if chans.contains c then 1 else 0))
    ∧ (∀ (st2 : PMState) (entry2 : PluginEntry),
        alookup p st2.plugins = some entry2 →
        entry2.blacklist = (unblacklistLoop entry.blacklist chans).1 →
        (∀ c ∈ chans, entry.blacklist.count c ≤ 1) →
        (unblacklist st2 p chans).map (fun r => r.1) = some chans) := by
  have hcount := unblacklistLoop_count chans entry.blacklist hnd
  refine ⟨?_, hcount, ?_⟩
  · rw [show (chans.filter (fun c => !(entry.blacklist.contains c))) =
      (unblacklistLoop entry.blacklist chans).2 from
      (unblacklistLoop_returns chans entry.blacklist hnd).symm]
    simp [unblacklist, hp, entryAfter]
  · intro st2 entry2 hp2 hbl2 hle
    have hnotin2 : ∀ c ∈ chans,
        c ∉ (unblacklistLoop entry.blacklist chans).1 := by
      intro c hc
      have hcc : chans.contains c = true := by simp [hc]
      have h1 := hcount c
      rw [hcc] at h1
      simp only [if_true] at h1
      have h2 := hle c hc
      have h0 : ((unblacklistLoop entry.blacklist chans).1).count c = 0 := by
        omega
      exact List.count_eq_zero.mp h0
    have hloop2 := unblacklistLoop_notin (unblacklistLoop entry.blacklist chans).1
      chans hnotin2
    rw [← hbl2] at hloop2
    simp [unblacklist, hp2, hloop2]

def entryEchoA : PluginEntry := ⟨"echo", modEcho, [cmdEcho], none, ["#a"]⟩

def entryEchoAA : PluginEntry := ⟨"echo", modEcho, [cmdEcho], none, ["#a", "#a"]⟩

def pmEchoA : PMState := ⟨[("echo", entryEchoA)], 0⟩

def pmEchoAA : PMState := ⟨[("echo", entryEchoAA)], 0⟩

/-- Counterexample to C8 as stated: blacklisting `"#a"` twice and
unblacklisting it once leaves `"#a"` blacklisted — list, not set, semantics —
so the plugin's commands are still suppressed in `"#a"` after a single
unblacklist request naming it. -/
theorem unblacklist_duplicate_counterexample :
    blacklist pmEcho "echo" ["#a"] = some pmEchoA
    ∧ blacklist pmEchoA "echo" ["#a"] = some pmEchoAA
    ∧ unblacklist pmEchoAA "echo" ["#a"] = some ([], pmEchoA)
    ∧ itercommands pmEchoA (some "#a") = []
    ∧ itercommands pmEcho (some "#a") = [cmdEcho] :=
  ⟨rfl, rfl, rfl, rfl, rfl⟩

/-- Witness for the amended C8, the spec's example: with only `"#a"`
blacklisted, `unblacklist(name, ["#a", "#b"])` returns `["#b"]` and removes
`"#a"`; calling it again returns `["#a", "#b"]`. -/
theorem unblacklist_spec_amended_witness :
    unblacklist pmEchoA "echo" ["#a", "#b"] = some (["#b"], pmEcho)
    ∧ (unblacklist pmEcho "echo" ["#a", "#b"]).map (fun r => r.1) =
        some ["#a", "#b"] := by
  have h := unblacklist_spec_amended pmEchoA "echo" ["#a", "#b"] entryEchoA
    rfl (by decide)
  exact ⟨h.1, h.2.2 pmEcho entryEcho rfl rfl (by decide)⟩

end CBot
